import Mathlib

/-!
Verification of the application layer of a FIX initiator client
(`fix_client.go`): the authentication signer (`sign`), the logon field
injection (`ToAdmin`), the order builder (`createOrderMessage`), and the
execution-report extraction (`processExecutionReport`).

Go strings are modelled as Lean `String`s; where byte-level computation
matters (hashing), a string is read as the list of its character codes,
which agrees with Go's UTF-8 byte view on the ASCII data the client
handles.  Machine integers of the hash computation are `Nat`s reduced
modulo `2 ^ 32` explicitly.  Ambient effects of the Go code (the current
time, environment variables) become explicit parameters; field maps of
the FIX engine become association lists with replace-or-append update.
-/

namespace PrimeFix

/-! ## Bytes and strings -/

/-- The byte view of a string: the character codes, matching Go's
`[]byte(s)` for ASCII data. -/
def strBytes (s : String) : List Nat :=
  s.data.map Char.toNat

/-! ## SHA-256 (the hash behind Go's `crypto/sha256`), FIPS 180-4 -/

/-- Truncation to a 32-bit word. -/
def w32 (n : Nat) : Nat := n % 4294967296

/-- Right rotation of a 32-bit word by `n` places. -/
def rotr32 (n x : Nat) : Nat := w32 ((x >>> n) ||| (x <<< (32 - n)))

/-- The `Ch` function of FIPS 180-4. -/
def ch (x y z : Nat) : Nat := (x &&& y) ^^^ ((x ^^^ 4294967295) &&& z)

/-- The `Maj` function of FIPS 180-4. -/
def maj (x y z : Nat) : Nat := (x &&& y) ^^^ (x &&& z) ^^^ (y &&& z)

/-- The big Σ₀ compression function. -/
def bSigma0 (x : Nat) : Nat := rotr32 2 x ^^^ rotr32 13 x ^^^ rotr32 22 x

/-- The big Σ₁ compression function. -/
def bSigma1 (x : Nat) : Nat := rotr32 6 x ^^^ rotr32 11 x ^^^ rotr32 25 x

/-- The small σ₀ message-schedule function. -/
def sSigma0 (x : Nat) : Nat := rotr32 7 x ^^^ rotr32 18 x ^^^ (x >>> 3)

/-- The small σ₁ message-schedule function. -/
def sSigma1 (x : Nat) : Nat := rotr32 17 x ^^^ rotr32 19 x ^^^ (x >>> 10)

/-- The 64 SHA-256 round constants (fractional parts of the cube roots of
the first 64 primes). -/
def sha256K : List Nat :=
  [1116352408, 1899447441, 3049323471, 3921009573, 961987163, 1508970993,
   2453635748, 2870763221, 3624381080, 310598401, 607225278, 1426881987,
   1925078388, 2162078206, 2614888103, 3248222580, 3835390401, 4022224774,
   264347078, 604807628, 770255983, 1249150122, 1555081692, 1996064986,
   2554220882, 2821834349, 2952996808, 3210313671, 3336571891, 3584528711,
   113926993, 338241895, 666307205, 773529912, 1294757372, 1396182291,
   1695183700, 1986661051, 2177026350, 2456956037, 2730485921, 2820302411,
   3259730800, 3345764771, 3516065817, 3600352804, 4094571909, 275423344,
   430227734, 506948616, 659060556, 883997877, 958139571, 1322822218,
   1537002063, 1747873779, 1955562222, 2024104815, 2227730452, 2361852424,
   2428436474, 2756734187, 3204031479, 3329325298]

/-- The initial SHA-256 state (fractional parts of the square roots of the
first 8 primes). -/
def sha256H0 : List Nat :=
  [1779033703, 3144134277, 1013904242, 2773480762, 1359893119, 2600822924,
   528734635, 1541459225]

/-- Big-endian bytes of a 32-bit word. -/
def wordToBytes (w : Nat) : List Nat :=
  [w / 16777216 % 256, w / 65536 % 256, w / 256 % 256, w % 256]

/-- Big-endian 32-bit words from a byte list (groups of four). -/
def bytesToWords : List Nat → List Nat
  | b0 :: b1 :: b2 :: b3 :: rest =>
      (((b0 * 256 + b1) * 256 + b2) * 256 + b3) :: bytesToWords rest
  | _ => []

/-- The 8-byte big-endian rendering of the 64-bit message bit length. -/
def len64Bytes (n : Nat) : List Nat :=
  [n / 72057594037927936 % 256, n / 281474976710656 % 256,
   n / 1099511627776 % 256, n / 4294967296 % 256,
   n / 16777216 % 256, n / 65536 % 256, n / 256 % 256, n % 256]

/-- SHA-256 padding: a `0x80` byte, zeros to 56 mod 64, then the bit
length, big endian, in 8 bytes. -/
def sha256Pad (msg : List Nat) : List Nat :=
  msg ++ (128 :: List.replicate ((119 - msg.length % 64) % 64) 0)
      ++ len64Bytes (8 * msg.length)

/-- Split a byte list into 64-byte blocks. -/
def chunks64 (bs : List Nat) : List (List Nat) :=
  if h : bs = [] then []
  else bs.take 64 :: chunks64 (bs.drop 64)
termination_by bs.length
decreasing_by
  simp only [List.length_drop]
  have : 0 < bs.length := List.length_pos.mpr h
  omega

/-- One step of the message-schedule extension: append
`σ₁(w[t-2]) + w[t-7] + σ₀(w[t-15]) + w[t-16]`. -/
def scheduleStep (ws : List Nat) : List Nat :=
  let n := ws.length
  ws ++ [w32 (sSigma1 (ws.getD (n - 2) 0) + ws.getD (n - 7) 0
              + sSigma0 (ws.getD (n - 15) 0) + ws.getD (n - 16) 0)]

/-- Iterate a function `n` times. -/
def iterate (f : α → α) : Nat → α → α
  | 0, a => a
  | n + 1, a => iterate f n (f a)

/-- The 64-word message schedule of one 64-byte block. -/
def messageSchedule (block : List Nat) : List Nat :=
  iterate scheduleStep 48 (bytesToWords block)

/-- One SHA-256 round on the working variables `[a,b,c,d,e,f,g,h]`,
consuming one `(constant, scheduled word)` pair. -/
def sha256Round (st : List Nat) (kw : Nat × Nat) : List Nat :=
  match st with
  | [a, b, c, d, e, f, g, h] =>
      let t1 := w32 (h + bSigma1 e + ch e f g + kw.1 + kw.2)
      let t2 := w32 (bSigma0 a + maj a b c)
      [w32 (t1 + t2), a, b, c, w32 (d + t1), e, f, g]
  | other => other

/-- Compression of one block into the running hash state. -/
def sha256Compress (hs block : List Nat) : List Nat :=
  let final := (sha256K.zip (messageSchedule block)).foldl sha256Round hs
  List.zipWith (fun x y => w32 (x + y)) hs final

/-- SHA-256 of a byte list: pad, compress each 64-byte block, emit the
state big endian. -/
def sha256 (msg : List Nat) : List Nat :=
  ((chunks64 (sha256Pad msg)).foldl sha256Compress sha256H0).map wordToBytes
    |>.flatten

/-! ## HMAC (Go's `crypto/hmac`, RFC 2104) -/

/-- HMAC key preparation: a key longer than the 64-byte block is replaced
by its hash; the result is zero-padded to 64 bytes. -/
def hmacBlockKey (key : List Nat) : List Nat :=
  let k := if 64 < key.length then sha256 key else key
  k ++ List.replicate (64 - k.length) 0

/-- HMAC-SHA256: `H((k ⊕ opad) ∥ H((k ⊕ ipad) ∥ m))` with the prepared
64-byte key. -/
def hmacSha256 (key msg : List Nat) : List Nat :=
  let pk := hmacBlockKey key
  sha256 ((pk.map (fun b => b ^^^ 92)) ++ sha256 ((pk.map (fun b => b ^^^ 54)) ++ msg))

/-! ## Base64 (Go's `encoding/base64` standard encoding) -/

/-- The standard base64 alphabet. -/
def base64Table : List Char :=
  "ABCDEFGHIJKLMNOPQRSTUVWXYZabcdefghijklmnopqrstuvwxyz0123456789+/".data

/-- The character for a 6-bit group. -/
def b64c (n : Nat) : Char := base64Table.getD n 'A'

/-- Standard base64 of a byte list, with `=` padding. -/
def base64Chars : List Nat → List Char
  | [] => []
  | [b1] => [b64c (b1 / 4), b64c (b1 % 4 * 16), '=', '=']
  | [b1, b2] => [b64c (b1 / 4), b64c (b1 % 4 * 16 + b2 / 16), b64c (b2 % 16 * 4), '=']
  | b1 :: b2 :: b3 :: rest =>
      b64c (b1 / 4) :: b64c (b1 % 4 * 16 + b2 / 16)
        :: b64c (b2 % 16 * 4 + b3 / 64) :: b64c (b3 % 64) :: base64Chars rest

/-- Standard base64 of a byte list, as a string. -/
def base64Encode (bs : List Nat) : String := ⟨base64Chars bs⟩

/-! ## The authentication signer (`sign`, fix_client.go lines 131-136) -/

/-- The string signed during logon: the six plaintext components
concatenated in the source's order
(`message := timestamp + msgType + seqNum + accessKey + targetCompID + passphrase`). -/
def signMessage (timestamp msgType seqNum accessKey targetCompID passphrase : String) : String :=
  timestamp ++ msgType ++ seqNum ++ accessKey ++ targetCompID ++ passphrase

/-- `sign` of fix_client.go: HMAC-SHA256 of the concatenated components,
keyed by the secret, base64-encoded. -/
def sign (timestamp msgType seqNum accessKey targetCompID passphrase secret : String) : String :=
  let message := signMessage timestamp msgType seqNum accessKey targetCompID passphrase
  base64Encode (hmacSha256 (strBytes secret) (strBytes message))

/-- The signer as the spec's §4.3 words state it: "concatenates the six
plaintext components in a fixed order into a single string, computes a
keyed hash (secret as key) over that string, and base64-encodes the
digest", the order being timestamp, msgType, seqNum, apiKey,
targetCompId, passphrase. -/
def signSpec (timestamp msgType seqNum apiKey targetCompId passphrase secret : String) : String :=
  base64Encode (hmacSha256 (strBytes secret)
    (strBytes (timestamp ++ msgType ++ seqNum ++ apiKey ++ targetCompId ++ passphrase)))

/-! ## FIX messages

A quickfix `FieldMap` stores one value per tag; `SetField` overwrites the
tag's value or adds the field, `GetField`/`GetString` look the tag up and
report an error when it is absent (the Go call sites discard that error,
leaving the destination at its zero value `""`). -/

/-- A FIX tag number. -/
abbrev Tag := Nat

/-- A field section of a message: tag-value pairs, one value per tag. -/
abbrev FieldMap := List (Tag × String)

/-- `SetField`: overwrite the tag's value if present, append otherwise. -/
def setField (m : FieldMap) (t : Tag) (v : String) : FieldMap :=
  match m with
  | [] => [(t, v)]
  | (t', v') :: rest => if t' = t then (t, v) :: rest else (t', v') :: setField rest t v

/-- `GetField`: the tag's value, `none` when the field is absent. -/
def getField (m : FieldMap) (t : Tag) : Option String :=
  match m with
  | [] => none
  | (t', v') :: rest => if t' = t then some v' else getField rest t

/-- A tag lookup as the error-discarding Go call sites see it: the zero
value `""` when the field is absent. -/
def getFieldD (m : FieldMap) (t : Tag) : String :=
  (getField m t).getD ""

/-- A FIX message: header and body field sections. (The trailer, filled
by the engine at serialization time, carries no application data here.) -/
structure Message where
  header : FieldMap
  body : FieldMap
deriving DecidableEq

/-! ## Decimal rendering (`fmt.Sprintf("%d", n)`) -/

/-- The ASCII digit character for `d`. -/
def digitChar (d : Nat) : Char := Char.ofNat (48 + d)

/-- Little-endian decimal digits of `n`, with explicit fuel (any fuel
`≥ n` yields all digits). -/
def natDigitsAux : Nat → Nat → List Nat
  | 0, _ => []
  | _ + 1, 0 => []
  | fuel + 1, n + 1 => ((n + 1) % 10) :: natDigitsAux fuel ((n + 1) / 10)

/-- `fmt.Sprintf("%d", n)`: the decimal rendering of a natural number. -/
def natToString (n : Nat) : String :=
  if n = 0 then "0" else ⟨((natDigitsAux n n).reverse).map digitChar⟩

/-- Value of a little-endian decimal digit list. -/
def decodeDigits : List Nat → Nat
  | [] => 0
  | d :: ds => d + 10 * decodeDigits ds

/-- Decode a decimal string back to its number; a left inverse of
`natToString`. -/
def stringToNat (s : String) : Nat :=
  decodeDigits ((s.data.map (fun c => c.toNat - 48)).reverse)

/-! ## The application (fix_client.go) -/

/-- The client's credential state (the engine session handle the Go
struct also carries plays no role in the verified functions). -/
structure FixApplication where
  apiKey : String
  apiSecret : String
  passphrase : String
  targetCompId : String
  portfolioId : String

/-- `ToAdmin` (fix_client.go lines 63-81): on an outbound admin message
whose header type is `"A"` (Logon), inject the authentication fields
1 (Account), 96 (RawData signature), 554 (Password), 9406 (DropCopyFlag,
hardcoded `"Y"`), 9407 (Access Key); other admin messages pass through
untouched.  `timestamp` stands for the formatted `time.Now()`; the
sequence number is the source's hardcoded `"1"`. -/
def ToAdmin (a : FixApplication) (timestamp : String) (msg : Message) : Message :=
  let msgType := (getField msg.header 35).getD ""
  if msgType = "A" then
    let seqNum := "1"
    let signature := sign timestamp "A" seqNum a.apiKey a.targetCompId a.passphrase a.apiSecret
    { msg with body :=
        setField (setField (setField (setField (setField msg.body
          1 a.portfolioId) 96 signature) 554 a.passphrase) 9406 "Y") 9407 a.apiKey }
  else msg

/-- The fields `processExecutionReport` extracts and logs. -/
structure ExecutionReport where
  execType : String
  orderID : String
  clOrdID : String
  side : String
  quantity : String
deriving DecidableEq

/-- `processExecutionReport` (fix_client.go lines 104-117): read tags
150, 37, 11, 54, 38 from the body, discarding each `GetField` error, so
an absent field is extracted as the zero value `""`. -/
def processExecutionReport (msg : Message) : ExecutionReport where
  execType := getFieldD msg.body 150
  orderID := getFieldD msg.body 37
  clOrdID := getFieldD msg.body 11
  side := getFieldD msg.body 54
  quantity := getFieldD msg.body 38

/-- `createOrderMessage` (fix_client.go lines 138-181).  `nowNanos` is
`time.Now().UnixNano()`, `sendingTime` the formatted `time.Now()`, and
`svcAccountId` the `SVC_ACCOUNTID` environment variable. -/
def createOrderMessage (nowNanos : Nat) (sendingTime svcAccountId : String)
    (symbol ordType side quantity limitPrice portfolioId : String) : Message :=
  let header := setField (setField (setField (setField []
    35 "D") 49 svcAccountId) 56 "COIN") 52 sendingTime
  let clientOrderId := natToString nowNanos
  let body1 := setField (setField (setField []
    1 portfolioId) 11 clientOrderId) 55 symbol
  let body2 :=
    if ordType = "LIMIT" then
      setField (setField (setField (setField body1 40 "2") 59 "1") 44 limitPrice) 847 "L"
    else if ordType = "MARKET" then
      setField (setField (setField body1 40 "1") 59 "3") 847 "M"
    else body1
  let body3 := if side = "BUY" then setField body2 54 "1" else setField body2 54 "2"
  { header := header, body := setField body3 38 quantity }

/-- The order `OnLogon` builds and sends (fix_client.go line 47): a
limit buy of 0.0015 ETH-USD at 1001 on the client's portfolio. -/
def onLogonOrder (a : FixApplication) (nowNanos : Nat) (sendingTime svcAccountId : String) : Message :=
  createOrderMessage nowNanos sendingTime svcAccountId
    "ETH-USD" "LIMIT" "BUY" "0.0015" "1001" a.portfolioId

/-! ## Field-map lemmas -/

/-- Looking up the tag just set yields the new value. -/
@[simp] theorem getField_setField_self (m : FieldMap) (t : Tag) (v : String) :
    getField (setField m t v) t = some v := by
  induction m with
  | nil => simp [setField, getField]
  | cons p rest ih =>
    obtain ⟨a, b⟩ := p
    by_cases h : a = t
    · simp [setField, getField, h]
    · simp [setField, getField, h, ih]

/-- Setting one tag leaves every other tag's lookup unchanged. -/
@[simp] theorem getField_setField_ne (m : FieldMap) {t t' : Tag} (h : t' ≠ t) (v : String) :
    getField (setField m t v) t' = getField m t' := by
  induction m with
  | nil => simp [setField, getField, Ne.symm h]
  | cons p rest ih =>
    obtain ⟨a, b⟩ := p
    by_cases ha : a = t
    · subst ha
      simp [setField, getField, Ne.symm h]
    · simp [setField, getField, ha, ih]

/-- Every value obtainable after a `setField` was already obtainable or
is the value just written. -/
theorem getField_setField_cases {m : FieldMap} {t t' : Tag} {v w : String}
    (h : getField (setField m t v) t' = some w) :
    getField m t' = some w ∨ w = v := by
  by_cases e : t' = t
  · subst e
    rw [getField_setField_self] at h
    exact Or.inr (Option.some.inj h).symm
  · rw [getField_setField_ne m e v] at h
    exact Or.inl h

/-! ## Decimal-rendering lemmas -/

/-- With enough fuel, decoding the emitted digits recovers the number. -/
theorem decodeDigits_natDigitsAux (fuel : Nat) :
    ∀ n, n ≤ fuel → decodeDigits (natDigitsAux fuel n) = n := by
  induction fuel with
  | zero =>
    intro n hn
    interval_cases n
    rfl
  | succ fuel ih =>
    intro n hn
    match n with
    | 0 => rfl
    | m + 1 =>
      have h1 : (m + 1) / 10 ≤ fuel := by omega
      have h2 := ih ((m + 1) / 10) h1
      simp only [natDigitsAux, decodeDigits, h2]
      omega

/-- Every emitted digit is below ten. -/
theorem natDigitsAux_lt_ten (fuel : Nat) :
    ∀ n, ∀ d ∈ natDigitsAux fuel n, d < 10 := by
  induction fuel with
  | zero => intro n d hd; simp [natDigitsAux] at hd
  | succ fuel ih =>
    intro n d hd
    match n with
    | 0 => simp [natDigitsAux] at hd
    | m + 1 =>
      simp only [natDigitsAux, List.mem_cons] at hd
      rcases hd with h | h
      · omega
      · exact ih _ _ h

/-- The code of a digit character. -/
theorem digitChar_toNat {d : Nat} (h : d < 10) : (digitChar d).toNat = 48 + d := by
  interval_cases d <;> decide

/-- `stringToNat` is a left inverse of the decimal rendering. -/
theorem stringToNat_natToString (n : Nat) : stringToNat (natToString n) = n := by
  by_cases h : n = 0
  · subst h; decide
  · unfold natToString
    rw [if_neg h]
    show decodeDigits (((((natDigitsAux n n).reverse).map digitChar).map
      (fun c => c.toNat - 48)).reverse) = n
    rw [List.map_map]
    have hid : ∀ d ∈ (natDigitsAux n n).reverse,
        ((fun c => c.toNat - 48) ∘ digitChar) d = (id d : Nat) := by
      intro d hd
      have hlt : d < 10 := natDigitsAux_lt_ten n n d (List.mem_reverse.mp hd)
      simp [Function.comp, digitChar_toNat hlt]
    rw [List.map_congr_left hid, List.map_id, List.reverse_reverse]
    exact decodeDigits_natDigitsAux n n le_rfl

/-- Distinct numbers render to distinct decimal strings. -/
theorem natToString_injective {m n : Nat} (h : natToString m = natToString n) : m = n := by
  have h2 := congrArg stringToNat h
  rwa [stringToNat_natToString, stringToNat_natToString] at h2

/-! ## String-concatenation lemmas -/

/-- Strings with equal character lists are equal. -/
theorem string_data_inj {s t : String} (h : s.data = t.data) : s = t := by
  cases s; cases t; exact congrArg String.mk h

/-- The character list of a concatenation. -/
theorem strData_append (s t : String) : (s ++ t).data = s.data ++ t.data := by
  cases s; cases t; rfl

/-- The signed string decomposed into its six components. -/
theorem signMessage_data (ts mt sn ak tc pp : String) :
    (signMessage ts mt sn ak tc pp).data
      = ts.data ++ (mt.data ++ (sn.data ++ (ak.data ++ (tc.data ++ pp.data)))) := by
  simp [signMessage, strData_append, List.append_assoc]

/-! ## Order-builder lemmas -/

/-- Tag 11 of every built order is the decimal rendering of the
invocation's `UnixNano` timestamp — and nothing else. -/
theorem createOrder_clOrdID (t : Nat) (st svc sym ot sd q p pid : String) :
    getField (createOrderMessage t st svc sym ot sd q p pid).body 11
      = some (natToString t) := by
  simp only [createOrderMessage]
  split_ifs <;> simp

/-! ## The claims -/

/-- Claim C1: for every timestamp, msgType, seqNum, apiKey, targetCompId,
passphrase, and secret, `sign` returns the base64 encoding of the
HMAC-SHA256 digest, keyed by the secret, of the string formed by
concatenating timestamp, msgType, seqNum, apiKey, targetCompId, and
passphrase in exactly that order. -/
theorem sign_matches_spec (ts mt sn ak tc pp sec : String) :
    sign ts mt sn ak tc pp sec = signSpec ts mt sn ak tc pp sec := rfl

/-- Claim C2, counterexample: a LIMIT order with no price and
non-positive quantity "0" still yields an order message — tag 55 carries
the symbol, tag 40 the limit code, tag 44 the empty price, tag 38 the
zero quantity — where the claim demands failure with a `ValidationError`
and no message. -/
theorem createOrder_no_validation_cex :
    getField (createOrderMessage 1 "20250101-00:00:00.000" "svc"
        "ETH-USD" "LIMIT" "BUY" "0" "" "pid").body 55 = some "ETH-USD" ∧
    getField (createOrderMessage 1 "20250101-00:00:00.000" "svc"
        "ETH-USD" "LIMIT" "BUY" "0" "" "pid").body 40 = some "2" ∧
    getField (createOrderMessage 1 "20250101-00:00:00.000" "svc"
        "ETH-USD" "LIMIT" "BUY" "0" "" "pid").body 44 = some "" ∧
    getField (createOrderMessage 1 "20250101-00:00:00.000" "svc"
        "ETH-USD" "LIMIT" "BUY" "0" "" "pid").body 38 = some "0" := by
  refine ⟨?_, ?_, ?_, ?_⟩ <;> decide

/-- Claim C2, amended: building an order never fails — `createOrderMessage`
returns a message for every input, with the quantity and, for LIMIT
orders, the price serialized exactly as supplied, even when the price is
absent (empty) or the quantity is not positive; no validation is
performed. -/
theorem createOrder_never_fails (t : Nat) (st svc sym sd q p pid : String) :
    getField (createOrderMessage t st svc sym "LIMIT" sd q p pid).body 55 = some sym ∧
    getField (createOrderMessage t st svc sym "LIMIT" sd q p pid).body 44 = some p ∧
    getField (createOrderMessage t st svc sym "LIMIT" sd q p pid).body 38 = some q := by
  refine ⟨?_, ?_, ?_⟩ <;> (simp only [createOrderMessage]; split_ifs <;> simp)

/-- Claim C4, counterexample: a Market order's body does contain the
time-in-force field — tag 59 is set to "3" (IOC) — where the claim says
tag 59 is omitted for Market orders. -/
theorem market_order_sets_tif_cex :
    getField (createOrderMessage 1 "20250101-00:00:00.000" "svc"
      "ETH-USD" "MARKET" "BUY" "1" "" "pid").body 59 = some "3" := by
  decide

/-- Claim C4, amended: every Market order omits the price field (tag 44)
but carries time-in-force (tag 59) "3" (IOC); Limit orders carry
time-in-force "1" (GTC) and the price; only the price field is
Limit-only. -/
theorem market_limit_price_tif (t : Nat) (st svc sym sd q p pid : String) :
    getField (createOrderMessage t st svc sym "MARKET" sd q p pid).body 44 = none ∧
    getField (createOrderMessage t st svc sym "MARKET" sd q p pid).body 59 = some "3" ∧
    getField (createOrderMessage t st svc sym "LIMIT" sd q p pid).body 44 = some p ∧
    getField (createOrderMessage t st svc sym "LIMIT" sd q p pid).body 59 = some "1" := by
  refine ⟨?_, ?_, ?_, ?_⟩ <;> (simp only [createOrderMessage]; split_ifs <;> simp_all [getField])

/-- Claim C6: the Limit Buy order `OnLogon` builds for "ETH-USD" with
quantity "0.0015" and price "1001" has body fields OrdType (40) "2",
Side (54) "1", OrderQty (38) "0.0015", Price (44) "1001", and a client
order ID (11) freshly generated from the invocation's timestamp. -/
theorem on_logon_limit_buy_fields (a : FixApplication) (t : Nat) (st svc : String) :
    getField (onLogonOrder a t st svc).body 40 = some "2" ∧
    getField (onLogonOrder a t st svc).body 54 = some "1" ∧
    getField (onLogonOrder a t st svc).body 38 = some "0.0015" ∧
    getField (onLogonOrder a t st svc).body 44 = some "1001" ∧
    getField (onLogonOrder a t st svc).body 11 = some (natToString t) := by
  refine ⟨?_, ?_, ?_, ?_, createOrder_clOrdID t st svc _ _ _ _ _ _⟩ <;>
    simp [onLogonOrder, createOrderMessage]

/-- Claim C9, counterexample: two distinct order-build invocations — for
different symbols, order types, and sides — that fall in the same
nanosecond produce the same client order ID (tag 11), so the ID is not
guaranteed unique within a session. -/
theorem clOrdID_collision_cex :
    getField (createOrderMessage 123456789 "t1" "svc"
        "ETH-USD" "LIMIT" "BUY" "0.0015" "1001" "pid").body 11
      = getField (createOrderMessage 123456789 "t2" "svc"
        "BTC-USD" "MARKET" "SELL" "2" "" "pid").body 11 := by
  rw [createOrder_clOrdID, createOrder_clOrdID]

/-- Claim C9, amended: the client order ID is the decimal rendering of the
invocation's `UnixNano` timestamp, so any two order-build invocations at
distinct timestamps produce distinct client order IDs; invocations within
the same nanosecond share an ID. -/
theorem clOrdID_distinct_times (t1 t2 : Nat)
    (st1 svc1 sym1 ot1 sd1 q1 p1 pid1 st2 svc2 sym2 ot2 sd2 q2 p2 pid2 : String)
    (h : t1 ≠ t2) :
    getField (createOrderMessage t1 st1 svc1 sym1 ot1 sd1 q1 p1 pid1).body 11
      ≠ getField (createOrderMessage t2 st2 svc2 sym2 ot2 sd2 q2 p2 pid2).body 11 := by
  rw [createOrder_clOrdID, createOrder_clOrdID]
  intro he
  exact h (natToString_injective (Option.some.inj he))

/-- Witness for the amended C9 theorem at distinct concrete timestamps. -/
theorem clOrdID_distinct_times_witness :
    getField (createOrderMessage 1 "t" "s" "ETH-USD" "LIMIT" "BUY" "1" "2" "p").body 11
      ≠ getField (createOrderMessage 2 "t" "s" "ETH-USD" "LIMIT" "BUY" "1" "2" "p").body 11 :=
  clOrdID_distinct_times 1 2 "t" "s" "ETH-USD" "LIMIT" "BUY" "1" "2" "p"
    "t" "s" "ETH-USD" "LIMIT" "BUY" "1" "2" "p" (by decide)

/-- Claim C3, counterexample: an execution report whose body lacks the
OrderID tag (37) is processed into a partially filled result with
`orderID = ""` — no `ParseError{MissingField, OrderID}` is raised. -/
theorem exec_report_missing_orderid_cex :
    getField (Message.mk [(35, "8")] [(150, "F"), (11, "c-1"), (54, "1"), (38, "5")]).body 37
        = none ∧
    processExecutionReport ⟨[(35, "8")], [(150, "F"), (11, "c-1"), (54, "1"), (38, "5")]⟩
        = ⟨"F", "", "c-1", "1", "5"⟩ := by
  refine ⟨?_, ?_⟩ <;> decide

/-- Claim C3, amended: execution-report processing never fails — each of
the five extracted fields (150, 37, 11, 54, 38) whose tag is absent from
the body is read back as the empty string, and the report is produced
with those empty values. -/
theorem exec_report_missing_defaults (msg : Message) :
    (getField msg.body 150 = none → (processExecutionReport msg).execType = "") ∧
    (getField msg.body 37 = none → (processExecutionReport msg).orderID = "") ∧
    (getField msg.body 11 = none → (processExecutionReport msg).clOrdID = "") ∧
    (getField msg.body 54 = none → (processExecutionReport msg).side = "") ∧
    (getField msg.body 38 = none → (processExecutionReport msg).quantity = "") := by
  refine ⟨?_, ?_, ?_, ?_, ?_⟩ <;> (intro h; simp [processExecutionReport, getFieldD, h])

/-- Witness for the amended C3 theorem on a report with an empty body. -/
theorem exec_report_missing_defaults_witness :
    (processExecutionReport ⟨[(35, "8")], []⟩).execType = "" ∧
    (processExecutionReport ⟨[(35, "8")], []⟩).orderID = "" ∧
    (processExecutionReport ⟨[(35, "8")], []⟩).clOrdID = "" ∧
    (processExecutionReport ⟨[(35, "8")], []⟩).side = "" ∧
    (processExecutionReport ⟨[(35, "8")], []⟩).quantity = "" :=
  ⟨(exec_report_missing_defaults _).1 rfl, (exec_report_missing_defaults _).2.1 rfl,
   (exec_report_missing_defaults _).2.2.1 rfl, (exec_report_missing_defaults _).2.2.2.1 rfl,
   (exec_report_missing_defaults _).2.2.2.2 rfl⟩

/-- Claim C5, counterexample: the passphrase, API key, and portfolio ID
are serialized verbatim into the outbound Logon message body (tags 554,
9407, 1) — not merely used as signature inputs — contradicting "never
logged or serialized". -/
theorem to_admin_serializes_credentials_cex :
    getField (ToAdmin ⟨"key", "sec", "pp", "COIN", "pid"⟩ "20250101-00:00:00.000"
        ⟨[(35, "A")], []⟩).body 554 = some "pp" ∧
    getField (ToAdmin ⟨"key", "sec", "pp", "COIN", "pid"⟩ "20250101-00:00:00.000"
        ⟨[(35, "A")], []⟩).body 9407 = some "key" ∧
    getField (ToAdmin ⟨"key", "sec", "pp", "COIN", "pid"⟩ "20250101-00:00:00.000"
        ⟨[(35, "A")], []⟩).body 1 = some "pid" := by
  refine ⟨?_, ?_, ?_⟩ <;> simp [ToAdmin, getField]

/-- Claim C5, amended: on a Logon message the client serializes the
passphrase (554), API key (9407), and portfolio ID (1) into the outbound
body; every body value after `ToAdmin` is either a value already present
or one of portfolio ID, signature, passphrase, "Y", API key — so the API
secret itself enters an outbound message only through the signature
computation. -/
theorem to_admin_credential_flow (a : FixApplication) (ts : String) (msg : Message) :
    (getField msg.header 35 = some "A" →
      getField (ToAdmin a ts msg).body 554 = some a.passphrase ∧
      getField (ToAdmin a ts msg).body 9407 = some a.apiKey ∧
      getField (ToAdmin a ts msg).body 1 = some a.portfolioId) ∧
    (∀ t v, getField (ToAdmin a ts msg).body t = some v →
      getField msg.body t = some v ∨
        v ∈ [a.portfolioId, sign ts "A" "1" a.apiKey a.targetCompId a.passphrase a.apiSecret,
             a.passphrase, "Y", a.apiKey]) := by
  constructor
  · intro h
    refine ⟨?_, ?_, ?_⟩ <;> simp [ToAdmin, h]
  · intro t v hv
    simp only [ToAdmin] at hv
    split_ifs at hv with h
    · rcases getField_setField_cases hv with hv1 | rfl
      · rcases getField_setField_cases hv1 with hv2 | rfl
        · rcases getField_setField_cases hv2 with hv3 | rfl
          · rcases getField_setField_cases hv3 with hv4 | rfl
            · rcases getField_setField_cases hv4 with hv5 | rfl
              · exact Or.inl hv5
              · exact Or.inr (by simp)
            · exact Or.inr (by simp)
          · exact Or.inr (by simp)
        · exact Or.inr (by simp)
      · exact Or.inr (by simp)
    · exact Or.inl hv

/-- Witness for the amended C5 theorem on a concrete Logon message. -/
theorem to_admin_credential_flow_witness :
    getField (ToAdmin ⟨"key", "sec", "pp", "COIN", "pid"⟩ "ts" ⟨[(35, "A")], []⟩).body 554
        = some "pp" ∧
    (getField (⟨[(35, "A")], []⟩ : Message).body 554 = some "pp" ∨
      "pp" ∈ ["pid", sign "ts" "A" "1" "key" "COIN" "pp" "sec", "pp", "Y", "key"]) :=
  have h := (to_admin_credential_flow ⟨"key", "sec", "pp", "COIN", "pid"⟩ "ts"
    ⟨[(35, "A")], []⟩).1 rfl
  ⟨h.1, (to_admin_credential_flow ⟨"key", "sec", "pp", "COIN", "pid"⟩ "ts"
    ⟨[(35, "A")], []⟩).2 554 "pp" h.1⟩

/-- Claim C7: on every outbound admin message of type Logon ("A"), the
client populates the body with account (1), HMAC signature as RawData
(96), passphrase as Password (554), drop-copy indicator hardcoded "Y"
(9406), and API access key (9407). -/
theorem to_admin_logon_auth_fields (a : FixApplication) (ts : String) (msg : Message)
    (h : getField msg.header 35 = some "A") :
    getField (ToAdmin a ts msg).body 1 = some a.portfolioId ∧
    getField (ToAdmin a ts msg).body 96
      = some (sign ts "A" "1" a.apiKey a.targetCompId a.passphrase a.apiSecret) ∧
    getField (ToAdmin a ts msg).body 554 = some a.passphrase ∧
    getField (ToAdmin a ts msg).body 9406 = some "Y" ∧
    getField (ToAdmin a ts msg).body 9407 = some a.apiKey := by
  refine ⟨?_, ?_, ?_, ?_, ?_⟩ <;> simp [ToAdmin, h]

/-- Witness for the C7 theorem on a concrete Logon message. -/
theorem to_admin_logon_auth_fields_witness :
    getField (ToAdmin ⟨"key", "sec", "pp", "COIN", "pid"⟩ "ts" ⟨[(35, "A")], []⟩).body 1
        = some "pid" ∧
    getField (ToAdmin ⟨"key", "sec", "pp", "COIN", "pid"⟩ "ts" ⟨[(35, "A")], []⟩).body 96
        = some (sign "ts" "A" "1" "key" "COIN" "pp" "sec") ∧
    getField (ToAdmin ⟨"key", "sec", "pp", "COIN", "pid"⟩ "ts" ⟨[(35, "A")], []⟩).body 554
        = some "pp" ∧
    getField (ToAdmin ⟨"key", "sec", "pp", "COIN", "pid"⟩ "ts" ⟨[(35, "A")], []⟩).body 9406
        = some "Y" ∧
    getField (ToAdmin ⟨"key", "sec", "pp", "COIN", "pid"⟩ "ts" ⟨[(35, "A")], []⟩).body 9407
        = some "key" :=
  to_admin_logon_auth_fields ⟨"key", "sec", "pp", "COIN", "pid"⟩ "ts" ⟨[(35, "A")], []⟩ rfl

/-- Claim C10: on every outbound admin message whose type is not Logon,
`ToAdmin` leaves the message — header and body — unchanged. -/
theorem to_admin_non_logon_frame (a : FixApplication) (ts : String) (msg : Message)
    (h : (getField msg.header 35).getD "" ≠ "A") :
    ToAdmin a ts msg = msg := by
  simp [ToAdmin, h]

/-- Witness for the C10 theorem on a concrete Heartbeat ("0") message. -/
theorem to_admin_non_logon_frame_witness :
    ToAdmin ⟨"key", "sec", "pp", "COIN", "pid"⟩ "ts" ⟨[(35, "0")], [(112, "req")]⟩
      = ⟨[(35, "0")], [(112, "req")]⟩ :=
  to_admin_non_logon_frame ⟨"key", "sec", "pp", "COIN", "pid"⟩ "ts"
    ⟨[(35, "0")], [(112, "req")]⟩ (by decide)

/-- Claim C8, counterexample: two input tuples that differ only in the
secret — one secret being the other extended by a NUL byte — produce the
same signature, because HMAC zero-pads the key to its 64-byte block; so
"changing any single input component changes the output" fails. -/
theorem sign_secret_padding_collision_cex :
    sign "20250101-00:00:00.000" "A" "1" "key" "COIN" "pp" "sec"
      = sign "20250101-00:00:00.000" "A" "1" "key" "COIN" "pp" "sec\x00" ∧
    ("sec" : String) ≠ "sec\x00" := by
  constructor
  · have h : hmacBlockKey (strBytes "sec") = hmacBlockKey (strBytes "sec\x00") := by decide
    simp only [sign, hmacSha256]
    rw [h]
  · decide

/-- Claim C8, amended: `sign` is deterministic — identical inputs give an
identical signature — and changing exactly one of the six plaintext
message components, the others fixed, changes the concatenated string
that is HMAC'd; changing only the secret need not change the signature
(HMAC key padding collides). -/
theorem sign_deterministic_message_sensitive
    (ts ts' mt mt' sn sn' ak ak' tc tc' pp pp' sec : String) :
    sign ts mt sn ak tc pp sec = sign ts mt sn ak tc pp sec ∧
    (ts ≠ ts' → signMessage ts mt sn ak tc pp ≠ signMessage ts' mt sn ak tc pp) ∧
    (mt ≠ mt' → signMessage ts mt sn ak tc pp ≠ signMessage ts mt' sn ak tc pp) ∧
    (sn ≠ sn' → signMessage ts mt sn ak tc pp ≠ signMessage ts mt sn' ak tc pp) ∧
    (ak ≠ ak' → signMessage ts mt sn ak tc pp ≠ signMessage ts mt sn ak' tc pp) ∧
    (tc ≠ tc' → signMessage ts mt sn ak tc pp ≠ signMessage ts mt sn ak tc' pp) ∧
    (pp ≠ pp' → signMessage ts mt sn ak tc pp ≠ signMessage ts mt sn ak tc pp') := by
  refine ⟨rfl, ?_, ?_, ?_, ?_, ?_, ?_⟩
  · intro hne heq
    apply hne
    apply string_data_inj
    have h := congrArg String.data heq
    rw [signMessage_data, signMessage_data] at h
    exact List.append_cancel_right h
  · intro hne heq
    apply hne
    apply string_data_inj
    have h := congrArg String.data heq
    rw [signMessage_data, signMessage_data] at h
    exact List.append_cancel_right (List.append_cancel_left h)
  · intro hne heq
    apply hne
    apply string_data_inj
    have h := congrArg String.data heq
    rw [signMessage_data, signMessage_data] at h
    exact List.append_cancel_right (List.append_cancel_left (List.append_cancel_left h))
  · intro hne heq
    apply hne
    apply string_data_inj
    have h := congrArg String.data heq
    rw [signMessage_data, signMessage_data] at h
    exact List.append_cancel_right
      (List.append_cancel_left (List.append_cancel_left (List.append_cancel_left h)))
  · intro hne heq
    apply hne
    apply string_data_inj
    have h := congrArg String.data heq
    rw [signMessage_data, signMessage_data] at h
    exact List.append_cancel_right (List.append_cancel_left
      (List.append_cancel_left (List.append_cancel_left (List.append_cancel_left h))))
  · intro hne heq
    apply hne
    apply string_data_inj
    have h := congrArg String.data heq
    rw [signMessage_data, signMessage_data] at h
    exact List.append_cancel_left (List.append_cancel_left
      (List.append_cancel_left (List.append_cancel_left (List.append_cancel_left h))))

/-- Witness for the amended C8 theorem: concrete single-component changes
to the signed string. -/
theorem sign_deterministic_message_sensitive_witness :
    signMessage "a" "c" "e" "g" "i" "k" ≠ signMessage "b" "c" "e" "g" "i" "k" ∧
    signMessage "a" "c" "e" "g" "i" "k" ≠ signMessage "a" "d" "e" "g" "i" "k" ∧
    signMessage "a" "c" "e" "g" "i" "k" ≠ signMessage "a" "c" "f" "g" "i" "k" ∧
    signMessage "a" "c" "e" "g" "i" "k" ≠ signMessage "a" "c" "e" "h" "i" "k" ∧
    signMessage "a" "c" "e" "g" "i" "k" ≠ signMessage "a" "c" "e" "g" "j" "k" ∧
    signMessage "a" "c" "e" "g" "i" "k" ≠ signMessage "a" "c" "e" "g" "i" "l" :=
  have H := sign_deterministic_message_sensitive
    "a" "b" "c" "d" "e" "f" "g" "h" "i" "j" "k" "l" "sec"
  ⟨H.2.1 (by decide), H.2.2.1 (by decide), H.2.2.2.1 (by decide), H.2.2.2.2.1 (by decide),
   H.2.2.2.2.2.1 (by decide), H.2.2.2.2.2.2 (by decide)⟩

end PrimeFix
